import Mathlib

/-!
Shallow embedding of the `scry` interactive tmux front-end
(`scry/scry.py`, `scry/tmuxcmd.py`) and proofs about its spec claims.

Python strings are modelled as Lean `String`s, or as `List Char` where
character-level processing (regex matching, slicing, splitting) happens.
Python `str.isdigit` / regex `\w` are modelled on their ASCII meaning.
Python exceptions are modelled with explicit result types; when a Python
function raises, the embedding returns the corresponding error value.
-/

/-- An element of Python's `str.split()` whitespace set (ASCII part). -/
def isPyWs (c : Char) : Bool :=
  c == ' ' || c == '\t' || c == '\n' || c == '\x0d' || c == '\x0b' || c == '\x0c'

/-- Does `hay` start with `needle`?  Models Python `str.startswith`. -/
def listStartsWith : List Char → List Char → Bool
  | [], _ => true
  | _ :: _, [] => false
  | a :: as, b :: bs => a == b && listStartsWith as bs

/-- Does `hay` contain `needle` as a contiguous substring?
Models the Python `in` operator on strings. -/
def containsSub (needle : List Char) : List Char → Bool
  | [] => listStartsWith needle []
  | c :: t => listStartsWith needle (c :: t) || containsSub needle t

/-- Accumulator-based whitespace splitter: models Python `str.split()`
with no arguments (splits on runs of whitespace, drops empty pieces). -/
def pySplitAux : List Char → List Char → List (List Char)
  | [], acc => if acc = [] then [] else [acc.reverse]
  | c :: cs, acc =>
      if isPyWs c then
        (if acc = [] then pySplitAux cs [] else acc.reverse :: pySplitAux cs [])
      else pySplitAux cs (c :: acc)

/-- Python `str.split()` with no arguments. -/
def pySplitWs (cs : List Char) : List (List Char) := pySplitAux cs []

/-- Python slice `xs[:i]` for an `int` bound `i` (negative bounds count
from the end, clamped at 0). -/
def pySliceTo (xs : List Char) (i : Int) : List Char :=
  if 0 ≤ i then xs.take i.toNat else xs.take ((xs.length : Int) + i).toNat

/-- Python slice `xs[i:]` for an `int` bound `i` (negative bounds count
from the end, clamped at 0). -/
def pySliceFrom (xs : List Char) (i : Int) : List Char :=
  if 0 ≤ i then xs.drop i.toNat else xs.drop ((xs.length : Int) + i).toNat

/-- Python `a or b` for an optional string `a`: `b` when `a` is `None`
or the empty (falsy) string, else `a`. -/
def pyOr (a : Option String) (b : String) : String :=
  match a with
  | none => b
  | some s => if s.isEmpty then b else s

/-- A row of `tmux list-sessions` as parsed by `TmuxFmtCmd` in
`tmuxcmd.py` with keys `session_id`, `session_name`, `session_attached`,
`session_group`. -/
structure Session where
  session_id : String
  session_name : String
  session_attached : String
  session_group : String
deriving DecidableEq

/-- A row of `tmux list-windows` as parsed by `TmuxFmtCmd` in
`tmuxcmd.py` with keys `window_id`, `window_name`,
`window_active_clients`. -/
structure Window where
  window_id : String
  window_name : String
  window_active_clients : String
deriving DecidableEq

/-- Insertion step for `pySortBy`. -/
def insertByKey {α : Type} (key : α → String) (x : α) : List α → List α
  | [] => [x]
  | y :: ys => if key x < key y then x :: y :: ys else y :: insertByKey key x ys

/-- Sort ascending by a string key; models Python
`sorted(xs, key=lambda k: k[...])`. -/
def pySortBy {α : Type} (key : α → String) (l : List α) : List α :=
  l.foldr (insertByKey key) []

/-- Result of calling a Python function that may raise.  `runtimeError`
models a propagating `RuntimeError`; `unboundLocalError` models the
`UnboundLocalError` raised when a swallowed exception leaves a local
variable unassigned. -/
inductive PyCallResult (α : Type) where
  | ok : α → PyCallResult α
  | runtimeError : String → PyCallResult α
  | unboundLocalError : PyCallResult α
deriving DecidableEq

/-- Model of `TmuxCmd._execute_cmd` / `TmuxFmtCmd`: the external binary exits
with code `rc` and standard error `stderr`; on nonzero exit a
`RuntimeError` is raised carrying the stderr text, otherwise the parsed
rows are available.  The line parsing of the `-F` separator format is
abstracted as the already-parsed row list `rows`. -/
def tmuxFmtCmd {α : Type} (rc : Int) (stderr : String) (rows : α) : Except String α :=
  if rc ≠ 0 then .error ("tmux returned nonzero with stderr: " ++ stderr) else .ok rows

/-- Model of `tmux_list_sessions` from `tmuxcmd.py`.  The `except RuntimeError`
clause returns `[]` when the message contains "no server running"; for
any other message the clause falls through WITHOUT re-raising, and the
subsequent `return sorted(tmux_cmd.stdout, ...)` reads the unassigned
local `tmux_cmd`, raising `UnboundLocalError`. -/
def tmux_list_sessions (rc : Int) (stderr : String) (rows : List Session) :
    PyCallResult (List Session) :=
  match tmuxFmtCmd rc stderr rows with
  | .error e =>
      if containsSub "no server running".toList e.toList then .ok []
      else .unboundLocalError
  | .ok rs => .ok (pySortBy (fun s => s.session_name) rs)

/-- Model of `tmux_list_windows` from `tmuxcmd.py`; same structure as
`tmux_list_sessions`. -/
def tmux_list_windows (rc : Int) (stderr : String) (rows : List Window) :
    PyCallResult (List Window) :=
  match tmuxFmtCmd rc stderr rows with
  | .error e =>
      if containsSub "no server running".toList e.toList then .ok []
      else .unboundLocalError
  | .ok rs => .ok (pySortBy (fun w => w.window_name) rs)

/-- The eligibility test of the session-scanning loop in
`tmux_attach_window` (`tmuxcmd.py`): same group, purely numeric name,
unattached, name exactly 8 characters long. -/
def attachable (group : String) (s : Session) : Bool :=
  s.session_group == group
    && (!s.session_name.toList.isEmpty && s.session_name.toList.all (fun c => c.isDigit))
    && s.session_attached == "0"
    && s.session_name.length == 8

/-- Model of `tmux_attach_window` from `tmuxcmd.py`.  `sessions` is the list
returned by `tmux_list_sessions()`; `created_name` is the name that
`tmux_create_detached_session` would return if called.  The result is
the `-t` target passed to `tmux attach-session`. -/
def tmux_attach_window (window_id group : String) (sessions : List Session)
    (created_name : String) : String :=
  match sessions.find? (attachable group) with
  | some s => s.session_id ++ ":" ++ window_id
  | none => created_name ++ ":" ++ window_id

/-- Model of `ensure_session_group_exists` from `scry.py`.  `createRes` models
the outcome of the `tmux_create_detached_session` call (`.ok name` on
success, `.error e` when it raises).  Note that the source returns
`False` on BOTH outcomes of the creation attempt; only a pre-existing
group yields `True`. -/
def ensure_session_group_exists (sessions : List Session)
    (createRes : Except String String) (group : String) : Bool :=
  if ¬ (sessions.any (fun s => s.session_name == group)) then
    match createRes with
    | .ok _ => false
    | .error _ => false
  else true

/-- The empty-window-list group check at the top of `do_table_loop`
(`scry.py`): when no windows were listed and
`ensure_session_group_exists` returns `False`, the loop sets a transient
error message and `continue`s (result `some msg`); otherwise it proceeds
to the prompt (result `none`). -/
def table_loop_group_check (windows : List Window) (sessions : List Session)
    (createRes : Except String String) (group : String) : Option String :=
  if windows.length = 0 ∧ ¬ (ensure_session_group_exists sessions createRes group) then
    some "Did not find session group, attempted to create it"
  else none

/-- Model of `update_window_history` from `scry.py`, as a pure function on the
`WINDOW_HISTORY` deque (a list of window ids, most-recent-last).
Empty history: append; otherwise if the id is not already the
most-recent entry, remove any earlier occurrence and append. -/
def update_window_history (h : List String) (w : String) : List String :=
  if h = [] then h ++ [w]
  else if h.getLast? = some w then h
  else if w ∈ h then h.erase w ++ [w]
  else h ++ [w]

/-- The history obtained from the empty `WINDOW_HISTORY` by a sequence
of `update_window_history` (promote) calls. -/
def promoteAll (ids : List String) : List String :=
  ids.foldl update_window_history []

/-- The per-iteration staleness pruning in `do_table_loop` (`scry.py`):
if the history is nonempty and no listed window has the most-recent id,
pop the most-recent entry. -/
def prune_history (h : List String) (windows : List Window) : List String :=
  match h.getLast? with
  | none => h
  | some prev =>
      match windows.find? (fun w => w.window_id == prev) with
      | some _ => h
      | none => h.dropLast

/-- ASCII model of Python regex `\w`: letters, digits, underscore. -/
def isWordCharA (c : Char) : Bool := c.isAlphanum || c == '_'

/-- One character of the bracket class `[\w+-.]` of
`validate_window_name`: note the UNESCAPED hyphen, so `+-.` is the
character range from `'+'` (43) to `'.'` (46). -/
def inBracketClass (c : Char) : Bool := isWordCharA c || ('+' ≤ c && c ≤ '.')

/-- Python `$` in `re.match(r"^...$", s)` also matches just before a
single trailing newline; this strips that newline if present. -/
def stripFinalNewline (cs : List Char) : List Char :=
  if cs.getLast? = some '\n' then cs.dropLast else cs

/-- Model of `validate_window_name` from `scry.py`:
`re.match(r"^[\w+-.]+$", s)` is truthy. -/
def validate_window_name (cs : List Char) : Bool :=
  let w := stripFinalNewline cs
  !w.isEmpty && w.all inBracketClass

/-- Model of `format_window_name` from `scry.py`: names longer than `maxlen`
keep the first `maxlen // 2` characters, then `'*'`, then the final
`maxlen - maxlen // 2 - 1` characters (as Python slices). -/
def format_window_name (name : List Char) (maxlen : Int) : List Char :=
  if (name.length : Int) ≤ maxlen then name
  else
    let startchars := Int.fdiv maxlen 2
    pySliceTo name startchars ++ '*' :: pySliceFrom name (-(maxlen - startchars - 1))

/-- The result of `process_new_window_command` (`scry.py`) when it does
not crash: the window id to attach (if any), the error message, and
whether `tmux_create_detached_window` was invoked. -/
structure PNWResult where
  attach : Option String
  err : String
  createAttempted : Bool
deriving DecidableEq

/-- Outcome of `process_new_window_command`: either a normal return or
the `IndexError` raised by `command.split()[1]` when the command has no
second token. -/
inductive PNWOutcome where
  | ok : PNWResult → PNWOutcome
  | indexError : PNWOutcome
deriving DecidableEq

/-- Model of `process_new_window_command` from `scry.py`.  `createRes` models
the outcome of `tmux_create_detached_window`; `windowsAfter` models the
fresh `tmux_list_windows(session_group)` listing made after creation. -/
def process_new_window_command (command : List Char) (createRes : Except String Unit)
    (windowsAfter : List Window) : PNWOutcome :=
  match (pySplitWs command).get? 1 with
  | none => .indexError
  | some window_name =>
      if ¬ validate_window_name window_name then
        .ok ⟨none, "Invalid window name!", false⟩
      else
        match createRes with
        | .error e =>
            if containsSub "bad window name".toList e.toList then
              .ok ⟨none, "Invalid tmux window name", true⟩
            else .ok ⟨none, e, true⟩
        | .ok _ =>
            .ok ⟨(windowsAfter.find? (fun w => w.window_name.toList == window_name)).map
                  (fun w => w.window_id), "", true⟩

/-- Model of `dump_windows_to_yaml` from `scry.py`: writes the window names to
the dump file; both the success path and the caught `IOError` path
(`io` is the outcome of the file write) return `None`. -/
def dump_windows_to_yaml (windows : List Window) (io : Except String Unit) :
    Option String :=
  match io with
  | .ok _ => none
  | .error _ => none

/-- Model of `load_windows_from_yaml` from `scry.py`.  `fileData` is the parsed
dump file: `.error` for `FileNotFoundError` / `YAMLError` / `IOError`,
`.ok none` for a file without a valid `active_windows` list, `.ok
(some names)` for the parsed name list.  The function returns `None` on
every path; the second component records the names for which
`tmux_create_detached_window` is invoked (those not currently listed). -/
def load_windows_from_yaml (fileData : Except String (Option (List String)))
    (current : List Window) : Option String × List String :=
  match fileData with
  | .error _ => (none, [])
  | .ok none => (none, [])
  | .ok (some names) =>
      (none, names.filter (fun n => ¬ (current.any (fun w => w.window_name == n))))

/-- External outcomes consumed by one `process_command` dispatch. -/
structure CmdEnv where
  dump_io : Except String Unit
  load_data : Except String (Option (List String))
  create_res : Except String Unit
  windows_after_create : List Window

/-- Outcome of `process_command` (`scry.py`): a `(window_to_attach,
error_message)` pair, or `sys.exit(0)` for `q`, or the help screen for
`?`, or the `IndexError` crash of a bare `n`. -/
inductive CmdOutcome where
  | result : Option String → String → CmdOutcome
  | exited : CmdOutcome
  | helpShown : CmdOutcome
  | indexErrorCrash : CmdOutcome
deriving DecidableEq

/-- Is every character an ASCII decimal digit (and the string
nonempty)?  Models Python `str.isdecimal` on ASCII strings. -/
def isDecimalStr (cs : List Char) : Bool := !cs.isEmpty && cs.all (fun c => c.isDigit)

/-- Value of Python `int(s)` for a decimal string. -/
def natOfDecimal (cs : List Char) : Nat :=
  cs.foldl (fun a c => a * 10 + (c.toNat - '0'.toNat)) 0

/-- Model of `process_command` from `scry.py`.  `history` is the
`WINDOW_HISTORY` deque; `env` carries the outcomes of the external
calls the dispatched branch may make. -/
def process_command (command : List Char) (windows : List Window)
    (history : List String) (env : CmdEnv) : CmdOutcome :=
  if command = [] then
    match history.getLast? with
    | some w => .result (some w) ""
    | none => .result none ""
  else if isDecimalStr command then
    match windows.get? (natOfDecimal command) with
    | some w => .result (some w.window_id) ""
    | none => .result none "Invalid index"
  else if listStartsWith "n ".toList command then
    match process_new_window_command command env.create_res env.windows_after_create with
    | .indexError => .indexErrorCrash
    | .ok r => .result r.attach r.err
  else if command = "s".toList then
    if history.length > 1 then .result (history.get? (history.length - 2)) ""
    else .result none ""
  else if command = "q".toList then .exited
  else if command = "?".toList then .helpShown
  else if command = "u".toList then .result none ""
  else if command = "d".toList then
    .result none (pyOr (dump_windows_to_yaml windows env.dump_io)
      "Window list dumped to YAML.")
  else if command = "l".toList then
    .result none (pyOr (load_windows_from_yaml env.load_data windows).1
      "Windows loaded from YAML.")
  else .result none ("command \"" ++ command.asString ++ "\" not recognized")

/-- Number of characters reserved for row indices in
`format_window_strings` (`scry.py`). -/
def idxLen (n : Nat) : Nat := if n > 100 then 3 else if n > 10 then 2 else 1

/-- The sequence of three highlight assignments at the top of the
per-window loop in `format_window_strings`: later matches overwrite
earlier ones. -/
def histMark (history : List String) (wid : String) : String :=
  let s := ""
  let s := if history.length > 0 ∧ history.get? (history.length - 1) = some wid then
    "[bold reverse magenta]" else s
  let s := if history.length > 1 ∧ history.get? (history.length - 2) = some wid then
    "[bold italic green]" else s
  if history.length > 2 ∧ history.get? (history.length - 3) = some wid then
    "[bold italic blue]" else s

/-- Python `f"{i:>{k}d}"`: decimal digits right-aligned to width `k`
with spaces. -/
def padIdx (k : Nat) (i : Nat) : String :=
  let d := toString i
  ⟨List.replicate (k - d.length) ' '⟩ ++ d

/-- Model of `format_window_strings` from `scry.py`: `none` models the
`RuntimeError` raised for more than 1000 windows (before any row string
is built); otherwise one formatted string per window. -/
def format_window_strings (column_width : Int) (fmt_overhead_cfg : Int)
    (history : List String) (windows : List Window) : Option (List String) :=
  let n := windows.length
  if n > 1000 then none
  else
    let il := idxLen n
    let fo : Int := fmt_overhead_cfg + il
    some (windows.enum.map (fun p =>
      let i := p.1
      let w := p.2
      let hl := histMark history w.window_id
      let idxStr := "[b]" ++ padIdx il i ++ ")[/b]"
      let marker := if w.window_active_clients ≠ "0" then "[bold italic]#" else " "
      let fmtName := (format_window_name w.window_name.toList (column_width - fo)).asString
      hl ++ idxStr ++ marker ++ fmtName ++ " "
        ++ (⟨List.replicate (column_width - (fmtName.length : Int) - fo).toNat '.'⟩ : String)
        ++ " "))

/-- The `while` loop of `get_column_width` (`scry.py`), indexed by the
current candidate column count AFTER the decrement at the top of each
iteration: candidate `0` models the `ZeroDivisionError` of
`(terminal_size.columns - 0) // 0` (result `none`); otherwise the width
is computed with Python floor division and the loop exits once it
reaches the threshold `thr`. -/
def gcw_loop (tcols thr : Nat) : Nat → Option (Nat × Int)
  | 0 => none
  | Nat.succ k =>
      let w : Int := Int.fdiv ((tcols : Int) - ((k + 1 : Nat) : Int)) ((k + 1 : Nat) : Int)
      if w < (thr : Int) then gcw_loop tcols thr k else some (k + 1, w)

/-- Model of `get_column_width` from `scry.py` for terminal width `tcols` and
configuration `fmt_overhead` / `minnamelen` / `n_cols`.  The source
starts from `n_cols + 1` and decrements BEFORE computing each width, so
the first candidate actually tested is `ncols`;  `none` models the
`ZeroDivisionError` hit when the count reaches `0`. -/
def get_column_width (tcols overhead minname ncols : Nat) : Option (Nat × Int) :=
  gcw_loop tcols (overhead + minname + 3) ncols

/-- Claim C1 (counterexample): on a narrow terminal (width 10) with the
default configuration (`fmt_overhead = 3`, `minnamelen = 15`,
`n_cols = 4`), `get_column_width` decrements the column count all the
way to `0` and divides by it (`none` models the `ZeroDivisionError`),
contradicting the claim that it never divides by a zero column count and
degenerates to 1 column. -/
theorem c1_counterexample : get_column_width 10 3 15 4 = none := by decide

/-- Claim C2 (code evaluation): a nonzero exit whose stderr contains
"no server running" yields the empty list, but any OTHER nonzero exit
yields `UnboundLocalError`, not the propagating `RuntimeError` the claim
(and the functions' own docstrings) describe: the `except` clause
swallows the exception and the subsequent `return
sorted(tmux_cmd.stdout, ...)` reads the never-assigned local. -/
theorem c2_list_error_eval :
    tmux_list_sessions 1 "no server running on /tmp/tmux-1000/default" [] = .ok [] ∧
    tmux_list_windows 1 "no server running on /tmp/tmux-1000/default" [] = .ok [] ∧
    tmux_list_sessions 1 "error connecting to /tmp/tmux: No such file or directory" []
        = .unboundLocalError ∧
    tmux_list_windows 1 "error connecting to /tmp/tmux: No such file or directory" []
        = .unboundLocalError := by
  refine ⟨rfl, rfl, rfl, rfl⟩

/-- Claim C3 (code evaluation): with an empty window list and a missing
session group, `ensure_session_group_exists` returns `False` even when
the creation call SUCCEEDS (`.ok "main"`), so `do_table_loop` surfaces
the transient error message and restarts — contradicting the claim (and
the function's docstring "True if the session group exists or was
created"). -/
theorem c3_group_check_eval :
    ensure_session_group_exists [] (.ok "main") "main" = false ∧
    table_loop_group_check [] [] (.ok "main") "main"
        = some "Did not find session group, attempted to create it" := by
  exact ⟨rfl, rfl⟩

/-- Claim C4 (counterexample): the claim says `","` is rejected, but the
unescaped hyphen in the source pattern `^[\w+-.]+$` makes `+-.` a
character range from `'+'` (43) to `'.'` (46) that contains `','` (44),
so the code accepts it. -/
theorem c4_counterexample : validate_window_name ",".toList = true := by decide

/-- Claim C5 (counterexample): for `maxlen = 2` the tail slice index
`-(maxlen - maxlen // 2 - 1)` is `-0 = 0`, so the slice is the WHOLE
name and the result has length 5, not 2; and when the name itself
contains `'*'` the result can contain two `'*'` characters, not exactly
one. -/
theorem c5_counterexample :
    ("abc".toList.length > 2 ∧ (format_window_name "abc".toList 2).length ≠ 2) ∧
    ("a*cde".toList.length > 4 ∧ (format_window_name "a*cde".toList 4).count '*' ≠ 1) := by
  decide

/-- Claim C10: the `d` and `l` commands always produce their
confirmation messages ("Window list dumped to YAML." / "Windows loaded
from YAML.") whatever the outcome of the underlying file operation,
because `dump_windows_to_yaml` and `load_windows_from_yaml` swallow
their errors and return `None`, so the caller's `or`-fallback message is
displayed even on failure. -/
theorem c10_yaml_messages (windows : List Window) (history : List String) (env : CmdEnv) :
    process_command "d".toList windows history env
        = .result none "Window list dumped to YAML." ∧
    process_command "l".toList windows history env
        = .result none "Windows loaded from YAML." := by
  obtain ⟨dio, ld, cr, wac⟩ := env
  refine ⟨?_, ?_⟩
  · cases dio <;> rfl
  · cases ld with
    | error e => rfl
    | ok o => cases o <;> rfl

lemma update_window_history_eq_erase {h : List String} (hn : h.Nodup) (w : String) :
    update_window_history h w = h.erase w ++ [w] := by
  unfold update_window_history
  by_cases h0 : h = []
  · subst h0; simp
  · rw [if_neg h0]
    by_cases hlast : h.getLast? = some w
    · rw [if_pos hlast]
      have hsplit : h.dropLast ++ [w] = h := List.dropLast_append_getLast? w hlast
      have hwmem : w ∉ h.dropLast := by
        intro hw
        have hnd := hn
        rw [← hsplit] at hnd
        exact (List.nodup_append.mp hnd).2.2 hw (by simp)
      have herase : h.erase w = h.dropLast := by
        conv_lhs => rw [← hsplit]
        rw [List.erase_append_right _ hwmem, List.erase_cons_head]
        simp
      rw [herase, hsplit]
    · rw [if_neg hlast]
      by_cases hmem : w ∈ h
      · rw [if_pos hmem]
      · rw [if_neg hmem, List.erase_of_not_mem hmem]

lemma update_window_history_nodup {h : List String} (hn : h.Nodup) (w : String) :
    (update_window_history h w).Nodup := by
  rw [update_window_history_eq_erase hn w]
  rw [List.nodup_append]
  exact ⟨List.Nodup.erase w hn, List.nodup_singleton w,
    fun x hx hx1 => by
      simp only [List.mem_singleton] at hx1
      subst hx1
      exact hn.not_mem_erase hx⟩

lemma update_window_history_subset {h : List String} {w x : String}
    (hx : x ∈ update_window_history h w) (hn : h.Nodup) : x ∈ h ∨ x = w := by
  rw [update_window_history_eq_erase hn w] at hx
  rcases List.mem_append.mp hx with h1 | h1
  · exact .inl (List.erase_subset _ _ h1)
  · simp only [List.mem_singleton] at h1
    exact .inr h1

lemma promoteAll_aux (ids : List String) :
    ∀ (h : List String), h.Nodup →
      (ids.foldl update_window_history h).Nodup ∧
      ∀ x ∈ ids.foldl update_window_history h, x ∈ h ∨ x ∈ ids := by
  induction ids with
  | nil => exact fun h hn => ⟨hn, fun x hx => .inl hx⟩
  | cons i is ih =>
      intro h hn
      have hn1 := update_window_history_nodup hn i
      obtain ⟨hnd, hmem⟩ := ih (update_window_history h i) hn1
      refine ⟨hnd, fun x hx => ?_⟩
      rcases hmem x hx with h1 | h1
      · rcases update_window_history_subset h1 hn with h2 | h2
        · exact .inl h2
        · exact .inr (by simp [h2])
      · exact .inr (List.mem_cons_of_mem _ h1)

lemma nodup_length_le_dedup {l ids : List String} (hn : l.Nodup)
    (hs : ∀ x ∈ l, x ∈ ids) : l.length ≤ ids.dedup.length := by
  have h1 : l.toFinset.card = l.length := List.toFinset_card_of_nodup hn
  have h2 : ids.toFinset.card = ids.dedup.length := List.card_toFinset ids
  have h3 : l.toFinset ⊆ ids.toFinset := by
    intro x hx
    rw [List.mem_toFinset] at hx ⊢
    exact hs x hx
  calc l.length = l.toFinset.card := h1.symm
    _ ≤ ids.toFinset.card := Finset.card_le_card h3
    _ = ids.dedup.length := h2

/-- Claim C6: starting from the empty history, any sequence of promote
calls (`update_window_history`) yields a duplicate-free history whose
length is at most the number of distinct promoted identifiers, and each
promote behaves as "remove any prior occurrence, then append at the
most-recent position". -/
theorem c6_history_invariant (ids : List String) (h : List String) (w : String)
    (hn : h.Nodup) :
    (promoteAll ids).Nodup ∧ (promoteAll ids).length ≤ ids.dedup.length ∧
    update_window_history h w = h.erase w ++ [w] := by
  obtain ⟨hnd, hmem⟩ := promoteAll_aux ids [] (List.nodup_nil)
  refine ⟨hnd, ?_, update_window_history_eq_erase hn w⟩
  exact nodup_length_le_dedup hnd (fun x hx => by
    rcases hmem x hx with h1 | h1
    · simp at h1
    · exact h1)

/-- Witness for C6 at concrete inputs. -/
theorem c6_history_invariant_witness :
    (["a", "b"] : List String).Nodup ∧
    ((promoteAll ["a", "b", "a"]).Nodup ∧
      (promoteAll ["a", "b", "a"]).length ≤ (["a", "b", "a"] : List String).dedup.length ∧
      update_window_history ["a", "b"] "a" = (["a", "b"] : List String).erase "a" ++ ["a"]) :=
  ⟨by decide, c6_history_invariant ["a", "b", "a"] ["a", "b"] "a" (by decide)⟩

/-- Claim C7: the per-iteration staleness pruning removes the
most-recent (last) history entry if and only if its identifier belongs
to no listed window; it removes at most one element, and the result is
always an initial segment of the history (non-head entries untouched). -/
theorem c7_prune_policy (h : List String) (ws : List Window) :
    (h = [] → prune_history h ws = h) ∧
    (∀ x, h.getLast? = some x →
      ((∃ w ∈ ws, w.window_id = x) → prune_history h ws = h) ∧
      ((¬ ∃ w ∈ ws, w.window_id = x) → prune_history h ws = h.dropLast)) ∧
    (prune_history h ws = h ∨ prune_history h ws = h.dropLast) ∧
    h.length ≤ (prune_history h ws).length + 1 ∧
    prune_history h ws = h.take (prune_history h ws).length := by
  cases hl : h.getLast? with
  | none =>
      have h0 : h = [] := List.getLast?_eq_none_iff.mp hl
      subst h0
      have hpr : prune_history [] ws = [] := by simp [prune_history]
      rw [hpr]
      refine ⟨fun _ => rfl, fun x hx => by simp at hx, .inl rfl, by simp, by simp⟩
  | some prev =>
      have hne : h ≠ [] := by
        intro h0
        subst h0
        simp at hl
      have hlen : 1 ≤ h.length := List.length_pos.mpr hne
      cases hf : ws.find? (fun w => w.window_id == prev) with
      | some w =>
          have hpr : prune_history h ws = h := by
            simp only [prune_history, hl, hf]
          have hw : w.window_id = prev := by
            have := List.find?_some hf
            simpa using this
          have hwm : w ∈ ws := List.mem_of_find?_eq_some hf
          rw [hpr]
          refine ⟨fun _ => rfl, ?_, .inl rfl, by omega, by rw [List.take_length]⟩
          intro x hx
          injection hx with hx
          subst hx
          exact ⟨fun _ => rfl, fun hc => absurd ⟨w, hwm, hw⟩ hc⟩
      | none =>
          have hpr : prune_history h ws = h.dropLast := by
            simp only [prune_history, hl, hf]
          have hnone : ∀ w ∈ ws, w.window_id ≠ prev := by
            intro w hwm
            have := List.find?_eq_none.mp hf w hwm
            simpa using this
          rw [hpr]
          refine ⟨fun h0 => absurd h0 hne, ?_, .inr rfl, ?_, ?_⟩
          · intro x hx
            injection hx with hx
            subst hx
            exact ⟨fun ⟨w, hwm, hw⟩ => absurd hw (hnone w hwm), fun _ => rfl⟩
          · rw [List.length_dropLast]
            omega
          · rw [List.length_dropLast, ← List.dropLast_eq_take]

/-- Witness for C7 at concrete inputs. -/
theorem c7_prune_policy_witness : prune_history ["a", "b"] [] = ["a"] := by
  have hp := ((c7_prune_policy ["a", "b"] []).2.1 "b" rfl).2 (by simp)
  simpa using hp

/-- Claim C8: the renderer's string formatting fails (raises, modelled
as `none`) exactly when the window count exceeds 1000 — before building
any row string — and otherwise returns one formatted string per
window. -/
theorem c8_capacity (cw fo : Int) (hist : List String) (ws : List Window) :
    (format_window_strings cw fo hist ws = none ↔ 1000 < ws.length) ∧
    (∀ l, format_window_strings cw fo hist ws = some l → l.length = ws.length) := by
  by_cases hgt : ws.length > 1000
  · constructor
    · simp [format_window_strings, hgt]
    · intro l hl
      simp [format_window_strings, hgt] at hl
  · constructor
    · simp [format_window_strings, hgt]
    · intro l hl
      simp only [format_window_strings, if_neg hgt, Option.some.injEq] at hl
      subst hl
      simp [List.length_map, List.enum_length]

/-- Witness for C8 at concrete inputs. -/
theorem c8_capacity_witness :
    format_window_strings 0 0 [] (List.replicate 1001 ⟨"@1", "a", "0"⟩) = none ∧
    ([] : List String).length = ([] : List Window).length :=
  ⟨(c8_capacity 0 0 [] (List.replicate 1001 ⟨"@1", "a", "0"⟩)).1.mpr
      (by rw [List.length_replicate]; omega),
   (c8_capacity 0 0 [] []).2 [] rfl⟩

/-- Claim C9: `tmux_attach_window` selects the first listed session
whose group matches, whose name is purely 8 numeric digits and whose
attached count is "0"; when none qualifies it falls back to the newly
created detached session; in both cases the attach target is
"session:window". -/
theorem c9_attach_selection (wid group created : String) (sessions : List Session) :
    (∀ s, sessions.find? (attachable group) = some s →
        tmux_attach_window wid group sessions created = s.session_id ++ ":" ++ wid ∧
        attachable group s = true ∧
        ∃ pre post, sessions = pre ++ s :: post ∧ ∀ x ∈ pre, attachable group x = false) ∧
    (sessions.find? (attachable group) = none →
        (∀ x ∈ sessions, attachable group x = false) ∧
        tmux_attach_window wid group sessions created = created ++ ":" ++ wid) ∧
    (∀ s, attachable group s = true ↔
        s.session_group = group ∧ (∀ c ∈ s.session_name.toList, c.isDigit = true) ∧
        s.session_attached = "0" ∧ s.session_name.length = 8) := by
  refine ⟨?_, ?_, ?_⟩
  · intro s hf
    refine ⟨?_, List.find?_some hf, ?_⟩
    · unfold tmux_attach_window
      rw [hf]
    · obtain ⟨hp, pre, post, hsplit, hall⟩ := List.find?_eq_some.mp hf
      exact ⟨pre, post, hsplit, fun x hx => by simpa using hall x hx⟩
  · intro hf
    refine ⟨?_, ?_⟩
    · intro x hx
      have := List.find?_eq_none.mp hf x hx
      simpa using this
    · unfold tmux_attach_window
      rw [hf]
  · intro s
    unfold attachable
    simp only [Bool.and_eq_true, beq_iff_eq, Bool.not_eq_true', List.isEmpty_eq_false,
      List.all_eq_true, decide_eq_true_eq]
    constructor
    · rintro ⟨⟨⟨hg, _, hdig⟩, ha⟩, hl⟩
      exact ⟨hg, hdig, ha, hl⟩
    · rintro ⟨hg, hdig, ha, hl⟩
      refine ⟨⟨⟨hg, ?_, hdig⟩, ha⟩, hl⟩
      intro h0
      have hll : s.session_name.toList.length = 8 := hl
      rw [h0] at hll
      simp at hll

/-- Witness for C9 at concrete inputs. -/
theorem c9_attach_selection_witness :
    tmux_attach_window "@7" "g"
        [⟨"$0", "main", "1", "g"⟩, ⟨"$2", "12345678", "0", "g"⟩] "cr"
      = "$2" ++ ":" ++ "@7" :=
  ((c9_attach_selection "@7" "g" "cr"
      [⟨"$0", "main", "1", "g"⟩, ⟨"$2", "12345678", "0", "g"⟩]).1
    ⟨"$2", "12345678", "0", "g"⟩ (by decide)).1

lemma gcw_loop_spec (tcols thr : Nat) :
    ∀ k, 1 ≤ k → thr + 1 ≤ tcols →
      ∃ n w, gcw_loop tcols thr k = some (n, w) ∧
        (thr : Int) ≤ w ∧ 1 ≤ n ∧ n ≤ k := by
  intro k
  induction k with
  | zero => intro h1 _; exact absurd h1 (by omega)
  | succ m ih =>
      intro _ h2
      simp only [gcw_loop]
      by_cases hw : Int.fdiv ((tcols : Int) - ((m + 1 : Nat) : Int)) ((m + 1 : Nat) : Int)
          < (thr : Int)
      · rw [if_pos hw]
        have hm : 1 ≤ m := by
          rcases Nat.eq_zero_or_pos m with hm0 | hm0
          · exfalso
            subst hm0
            have h1' : ((0 + 1 : Nat) : Int) = 1 := by norm_num
            rw [h1', Int.fdiv_one] at hw
            have hc : (thr : Int) + 1 ≤ (tcols : Int) := by exact_mod_cast h2
            omega
          · exact hm0
        obtain ⟨n, w, heq, hle, h1n, hnk⟩ := ih hm h2
        exact ⟨n, w, heq, hle, h1n, by omega⟩
      · rw [if_neg hw]
        push_neg at hw
        exact ⟨m + 1, _, rfl, hw, by omega, le_refl _⟩

/-- Claim C1 (amended): on terminals at least `fmt_overhead + minnamelen
+ 4` columns wide with a configured column count of at least 1, the
computation terminates without dividing by zero and returns a width at
least `fmt_overhead + minnamelen + 3` together with a column count
between 1 and the configured count; on narrower terminals it does NOT
degenerate to 1 column but divides by zero (`c1_counterexample`). -/
theorem c1_amended (tcols overhead minname ncols : Nat) (h1 : 1 ≤ ncols)
    (h2 : overhead + minname + 4 ≤ tcols) :
    get_column_width tcols overhead minname ncols ≠ none ∧
    ∀ n w, get_column_width tcols overhead minname ncols = some (n, w) →
      ((overhead + minname + 3 : Nat) : Int) ≤ w ∧ 1 ≤ n ∧ n ≤ ncols := by
  have h2' : (overhead + minname + 3) + 1 ≤ tcols := by omega
  obtain ⟨n, w, heq, hle, h1n, hnk⟩ :=
    gcw_loop_spec tcols (overhead + minname + 3) ncols h1 h2'
  unfold get_column_width
  rw [heq]
  refine ⟨by simp, ?_⟩
  intro n' w' h'
  injection h' with h'
  injection h' with e1 e2
  subst e1
  subst e2
  exact ⟨hle, h1n, hnk⟩

/-- Witness for the amended C1 at concrete inputs. -/
theorem c1_amended_witness :
    get_column_width 40 3 15 4 ≠ none ∧
    (((3 + 15 + 3 : Nat) : Int) ≤ 39 ∧ 1 ≤ 1 ∧ 1 ≤ 4) :=
  ⟨(c1_amended 40 3 15 4 (by decide) (by decide)).1,
   (c1_amended 40 3 15 4 (by decide) (by decide)).2 1 39 (by decide)⟩

lemma plusToDotRange {c : Char} (h1 : '+' ≤ c) (h2 : c ≤ '.') :
    c = '+' ∨ c = ',' ∨ c = '-' ∨ c = '.' := by
  rw [Char.le_def, UInt32.le_def, BitVec.le_def] at h1 h2
  have hcases : c.val.toBitVec.toNat = 43 ∨ c.val.toBitVec.toNat = 44 ∨
      c.val.toBitVec.toNat = 45 ∨ c.val.toBitVec.toNat = 46 := by
    have e1 : ('+').val.toBitVec.toNat = 43 := by decide
    have e2 : ('.').val.toBitVec.toNat = 46 := by decide
    rw [e1] at h1
    rw [e2] at h2
    omega
  rcases hcases with h | h | h | h
  · exact .inl (Char.ext (UInt32.toNat.inj (by rw [UInt32.toNat, h]; rfl)))
  · exact .inr (.inl (Char.ext (UInt32.toNat.inj (by rw [UInt32.toNat, h]; rfl))))
  · exact .inr (.inr (.inl (Char.ext (UInt32.toNat.inj (by rw [UInt32.toNat, h]; rfl)))))
  · exact .inr (.inr (.inr (Char.ext (UInt32.toNat.inj (by rw [UInt32.toNat, h]; rfl)))))

lemma inBracketClass_iff (c : Char) :
    inBracketClass c = true ↔
      (isWordCharA c = true ∨ c = '+' ∨ c = ',' ∨ c = '-' ∨ c = '.') := by
  unfold inBracketClass
  simp only [Bool.or_eq_true, Bool.and_eq_true, decide_eq_true_eq]
  constructor
  · rintro (hw | ⟨ha, hb⟩)
    · exact .inl hw
    · exact .inr (plusToDotRange ha hb)
  · rintro (hw | h | h | h | h)
    · exact .inl hw
    all_goals subst h
    · exact .inr ⟨by decide, by decide⟩
    · exact .inr ⟨by decide, by decide⟩
    · exact .inr ⟨by decide, by decide⟩
    · exact .inr ⟨by decide, by decide⟩

lemma pySplitAux_no_ws (cs : List Char) : ∀ acc, (∀ c ∈ cs, isPyWs c = false) →
    (acc ≠ [] ∨ cs ≠ []) → pySplitAux cs acc = [acc.reverse ++ cs] := by
  induction cs with
  | nil =>
      intro acc h hne
      rcases hne with h1 | h1
      · simp [pySplitAux, h1]
      · exact absurd rfl h1
  | cons c cs ih =>
      intro acc h hne
      have hc : isPyWs c = false := h c (by simp)
      rw [pySplitAux, if_neg (by simp [hc])]
      rw [ih (c :: acc) (fun x hx => h x (by simp [hx])) (.inl (by simp))]
      simp

/-- Claim C4 (amended): `validate_window_name` accepts a string iff,
after discounting a single trailing newline (matched by Python's `$`),
it is non-empty and every character is a word character or one of `'+'
',' '-' '.'` — the unescaped hyphen in `[\w+-.]` denotes the range
`'+'..'.'`, which includes the comma; and for a rejected name the `n`
command handler returns the display message "Invalid window name!"
without attempting to create any window. -/
theorem c4_amended (s name : List Char) (cr : Except String Unit) (ws : List Window)
    (hname : name ≠ [] ∧ ∀ c ∈ name, isPyWs c = false)
    (hbad : validate_window_name name = false) :
    (validate_window_name s = true ↔
      (stripFinalNewline s ≠ [] ∧ ∀ c ∈ stripFinalNewline s,
        isWordCharA c = true ∨ c = '+' ∨ c = ',' ∨ c = '-' ∨ c = '.')) ∧
    process_new_window_command ('n' :: ' ' :: name) cr ws
      = .ok ⟨none, "Invalid window name!", false⟩ := by
  constructor
  · simp only [validate_window_name, Bool.and_eq_true, List.all_eq_true,
      Bool.not_eq_true', List.isEmpty_eq_false]
    constructor
    · rintro ⟨h1, h2⟩
      exact ⟨h1, fun c hc => (inBracketClass_iff c).mp (h2 c hc)⟩
    · rintro ⟨h1, h2⟩
      exact ⟨h1, fun c hc => (inBracketClass_iff c).mpr (h2 c hc)⟩
  · have hsplit : pySplitWs ('n' :: ' ' :: name) = [['n'], name] := by
      unfold pySplitWs
      rw [pySplitAux, if_neg (by decide)]
      rw [pySplitAux, if_pos (by decide), if_neg (by simp)]
      rw [pySplitAux_no_ws name [] hname.2 (.inr hname.1)]
      simp
    have hget : (pySplitWs ('n' :: ' ' :: name)).get? 1 = some name := by
      rw [hsplit]
      rfl
    simp only [process_new_window_command, hget]
    rw [if_pos (by simp [hbad])]

/-- Witness for the amended C4 at concrete inputs. -/
theorem c4_amended_witness :
    process_new_window_command ('n' :: ' ' :: "foo!".toList) (.ok ()) []
      = .ok ⟨none, "Invalid window name!", false⟩ :=
  (c4_amended "a,b".toList "foo!".toList (.ok ()) []
    ⟨by decide, by decide⟩ (by decide)).2

/-- Claim C5 (amended): for allowed widths of at least 3 and names
longer than the allowed width, the truncated name has length exactly
`maxlen`, preserves the first `maxlen // 2` characters and the final
`maxlen - maxlen // 2 - 1` characters, and carries the elision marker
`'*'` at position `maxlen // 2` (a single `'*'` overall whenever the
name itself contains none); names that fit are returned unchanged.  For
widths 2 and below the source's negative-index slice misbehaves
(`c5_counterexample`). -/
theorem c5_amended (name name2 : List Char) (m : Nat) (k : Int)
    (h3 : 3 ≤ m) (hlen : m < name.length) (hk : (name2.length : Int) ≤ k) :
    (format_window_name name (m : Int)).length = m ∧
    (format_window_name name (m : Int)).take (m / 2) = name.take (m / 2) ∧
    (format_window_name name (m : Int)).drop (m / 2 + 1)
      = name.drop (name.length - (m - m / 2 - 1)) ∧
    (format_window_name name (m : Int))[m / 2]? = some '*' ∧
    ('*' ∉ name → (format_window_name name (m : Int)).count '*' = 1) ∧
    format_window_name name2 k = name2 := by
  have hs1 : 1 ≤ m / 2 := by omega
  have hk1 : 1 ≤ m - m / 2 - 1 := by omega
  have hslt : m / 2 < name.length := by omega
  have hklt : m - m / 2 - 1 < name.length := by omega
  have hred : format_window_name name (m : Int)
      = name.take (m / 2) ++ '*' :: name.drop (name.length - (m - m / 2 - 1)) := by
    unfold format_window_name
    rw [if_neg (by omega)]
    have hfd : Int.fdiv (m : Int) 2 = ((m / 2 : Nat) : Int) := (Int.ofNat_fdiv m 2).symm
    simp only [hfd]
    have harg : -((m : Int) - ((m / 2 : Nat) : Int) - 1) = -(((m - m / 2 - 1 : Nat)) : Int) := by
      push_cast
      omega
    rw [harg]
    rw [pySliceTo, if_pos (by positivity), pySliceFrom, if_neg (by omega)]
    rw [Int.toNat_ofNat]
    have htn : ((name.length : Int) + -((m - m / 2 - 1 : Nat) : Int)).toNat
        = name.length - (m - m / 2 - 1) := by omega
    rw [htn]
  have htakelen : (name.take (m / 2)).length = m / 2 := by
    rw [List.length_take]
    omega
  refine ⟨?_, ?_, ?_, ?_, ?_, ?_⟩
  · rw [hred]
    simp [List.length_append, List.length_take, List.length_drop]
    omega
  · rw [hred, List.take_left' htakelen]
  · rw [hred]
    have hassoc : name.take (m / 2) ++ '*' :: name.drop (name.length - (m - m / 2 - 1))
        = (name.take (m / 2) ++ ['*']) ++ name.drop (name.length - (m - m / 2 - 1)) := by
      simp
    rw [hassoc, List.drop_left' (by simp [htakelen])]
  · rw [hred, List.getElem?_append_right (by omega)]
    rw [htakelen]
    simp
  · intro hstar
    have hA : (name.take (m / 2)).count '*' = 0 :=
      List.count_eq_zero.mpr (fun h => hstar (List.take_subset _ _ h))
    have hB : (name.drop (name.length - (m - m / 2 - 1))).count '*' = 0 :=
      List.count_eq_zero.mpr (fun h => hstar (List.drop_subset _ _ h))
    rw [hred, List.count_append, hA]
    simp [List.count_cons, hB]
  · unfold format_window_name
    rw [if_pos hk]

/-- Witness for the amended C5 at concrete inputs. -/
theorem c5_amended_witness :
    (format_window_name "abcdefgh".toList ((5 : Nat) : Int)).length = 5 :=
  (c5_amended "abcdefgh".toList "ab".toList 5 5 (by decide) (by decide) (by decide)).1
